import Mathlib

/-!
Shallow embedding of the session core of `tuicom` (src/src/app.rs), a
serial-port terminal TUI.  Strings are modelled as `List Char` (Rust
`String.pop` removes the last char = `List.dropLast`), bytes as `Nat`
(always `< 256` where they come from the device), durations as `Nat`
nanoseconds.  The serial-port handle (`Box<dyn SerialPort>`) is modelled
as a per-tick oracle `DevTick` describing how the device answers each of
the capability calls, and every function that touches the device also
returns the list of capability calls it made (`IOCall`), so that claims
about "no further device I/O" are statable.  Wall-clock sampling
(`Instant::now()` inside `Cursor::update` and `Cursor::insert`) is
modelled by passing the tick's absolute timestamp `now` (nanoseconds) as
an explicit argument of the tick.
-/

namespace Tuicom

/-- Control signal returned by a tick (src/src/app.rs, `enum Control`). -/
inductive Control
  | Continue
  | Exit
  deriving DecidableEq

/-- Session mode (src/src/app.rs, `enum Mode`). -/
inductive Mode
  | Normal
  | Insert
  | Config
  | WannaQuit
  deriving DecidableEq

/-- Cursor state (src/src/app.rs, `enum Cursor`).  `last : Instant` is
modelled as an absolute timestamp in nanoseconds; `Instant::now()` is
modelled by the tick's timestamp `now`, supplied as an argument. -/
inductive Cursor
  | Normal
  | Insert (visible : Bool) (timer : Nat) (last : Nat)
  deriving DecidableEq

/-- Blink interval: `Duration::from_millis(500)` in nanoseconds. -/
def Cursor.BLINK_SPEED : Nat := 500000000

/-- The thin-bar glyph `Cursor::INSERT`. -/
def Cursor.INSERT : Char := '▎'

/-- The solid-block glyph `Cursor::NORMAL`. -/
def Cursor.NORMAL : Char := '▉'

/-- `Cursor::insert()`: visible, zero timer, `last = Instant::now()`. -/
def Cursor.insert (now : Nat) : Cursor :=
  Cursor.Insert true 0 now

/-- `Cursor::update(&mut self, key_pressed: bool)`: on a key press force
visible and zero the timer and return early — note the early return does
NOT refresh `last`; otherwise add `now - last` to the timer, set
`last := now`, and when the timer exceeds the blink interval, flip the
flag and subtract the interval.  (`Nat` subtraction truncates at zero,
matching `Instant::duration_since` saturation.) -/
def Cursor.update (c : Cursor) (key_pressed : Bool) (now : Nat) : Cursor :=
  match c with
  | Cursor.Normal => Cursor.Normal
  | Cursor.Insert visible timer last =>
    if key_pressed then Cursor.Insert true 0 last
    else
      let t := timer + (now - last)
      if t > Cursor.BLINK_SPEED then Cursor.Insert (!visible) (t - Cursor.BLINK_SPEED) now
      else Cursor.Insert visible t now

/-- `Cursor::cursor(&self) -> char`: glyph selection. -/
def Cursor.cursor (c : Cursor) : Char :=
  match c with
  | Cursor.Normal => Cursor.NORMAL
  | Cursor.Insert true _ _ => Cursor.INSERT
  | Cursor.Insert false _ _ => ' '

/-- Error kinds the device can report on `bytes_to_read`
(`serialport::ErrorKind::NoDevice` vs anything else). -/
inductive SerialErr
  | NoDevice
  | Other
  deriving DecidableEq

deriving instance DecidableEq for Except

/-- Per-tick behaviour of the serial device capability: the result of
`bytes_to_read`, the bytes a `read_exact` would deliver, and whether
`read_exact` / `write_all` succeed.  `write_ok = true` means the whole
buffer is written (`write_all` either writes everything or errors, so a
partial write surfaces as an error). -/
structure DevTick where
  bytes_to_read : Except SerialErr Nat
  read_data : List Nat
  read_ok : Bool
  write_ok : Bool
  deriving DecidableEq

/-- A device-capability invocation, recorded in the tick's I/O log. -/
inductive IOCall
  | bytesAvailable
  | readCall (n : Nat)
  | writeCall (bs : List Nat)
  deriving DecidableEq

/-- Key codes (crossterm `KeyCode`); every variant the dispatcher does
not name falls into `Other` (all such keys hit the same wildcard arm). -/
inductive KeyCode
  | Esc
  | Char (c : Char)
  | Tab
  | Enter
  | Other
  deriving DecidableEq

/-- A key event: code plus modifier bitflags (crossterm `KeyEvent`). -/
structure KeyEvent where
  code : KeyCode
  modifiers : Nat
  deriving DecidableEq

/-- Terminal events; everything that is not a key event (mouse, resize,
...) falls into `Other` and is ignored by `App::update`. -/
inductive Event
  | Key (k : KeyEvent)
  | Other
  deriving DecidableEq

/-- `char::encode_utf8`: the UTF-8 byte sequence of a scalar value. -/
def encodeUtf8 (c : Char) : List Nat :=
  let n := c.toNat
  if n < 0x80 then [n]
  else if n < 0x800 then
    [0xC0 ||| (n >>> 6), 0x80 ||| (n &&& 0x3F)]
  else if n < 0x10000 then
    [0xE0 ||| (n >>> 12), 0x80 ||| ((n >>> 6) &&& 0x3F), 0x80 ||| (n &&& 0x3F)]
  else
    [0xF0 ||| (n >>> 18), 0x80 ||| ((n >>> 12) &&& 0x3F),
     0x80 ||| ((n >>> 6) &&& 0x3F), 0x80 ||| (n &&& 0x3F)]

/-- Uppercase hex digit for `n < 16`, as produced by Rust's `{:02X}`. -/
def hexDigitChar (n : Nat) : Char :=
  if n < 10 then Char.ofNat (48 + n) else Char.ofNat (55 + n)

/-- The three characters `{byte:02X} ` appends for one byte `b < 256`. -/
def hexByte (b : Nat) : List Char :=
  [hexDigitChar (b / 16), hexDigitChar (b % 16), ' ']

/-- `fn push_hex(s: &mut String, byte: u8)`. -/
def push_hex (s : List Char) (b : Nat) : List Char :=
  s ++ hexByte b

/-- `fn push_ascii(s: &mut String, byte: u8)`: a tab byte renders as
four spaces, any other byte as its char. -/
def push_ascii (s : List Char) (b : Nat) : List Char :=
  if b = 9 then s ++ [' ', ' ', ' ', ' '] else s ++ [Char.ofNat b]

/-- Hex rendering of a whole byte sequence (repeated `push_hex` into an
empty string). -/
def hexRender (bs : List Nat) : List Char :=
  bs.foldl push_hex []

/-- Ascii rendering of a whole byte sequence (repeated `push_ascii` into
an empty string). -/
def asciiRender (bs : List Nat) : List Char :=
  bs.foldl push_ascii []

/-- The session state (`struct App`), minus the owned serial handle,
which the embedding replaces by the `DevTick` oracle. -/
structure App where
  tx_out : List Char
  tx_scroll : Nat
  rx_buf : List Nat
  rx_out : List Char
  rx_scroll : Nat
  is_hex : Bool
  connected : Bool
  mode : Mode
  cursor : Cursor
  deriving DecidableEq

/-- `App::new`: empty buffers, ascii mode, connected, Normal mode. -/
def App.new : App :=
  { tx_out := []
    tx_scroll := 0
    rx_buf := []
    rx_out := []
    rx_scroll := 0
    is_hex := false
    connected := true
    mode := Mode.Normal
    cursor := Cursor.Normal }

/-- `App::tx_push_char`: pop the trailing glyph, push the char, push the
current glyph. -/
def App.tx_push_char (a : App) (c : Char) : App :=
  { a with tx_out := a.tx_out.dropLast ++ [c, a.cursor.cursor] }

/-- `App::tx_push_str`: pop the trailing glyph, push the string, push
the current glyph. -/
def App.tx_push_str (a : App) (s : List Char) : App :=
  { a with tx_out := a.tx_out.dropLast ++ s ++ [a.cursor.cursor] }

/-- `App::update_cursor`: advance the blink timer, then pop and re-push
the (possibly changed) glyph. -/
def App.update_cursor (a : App) (key_pressed : Bool) (now : Nat) : App :=
  let c := a.cursor.update key_pressed now
  { a with cursor := c, tx_out := a.tx_out.dropLast ++ [c.cursor] }

/-- `App::enter_insert`: mode Insert, cursor visible with zeroed timer
anchored at the current instant. -/
def App.enter_insert (a : App) (now : Nat) : App :=
  { a with mode := Mode.Insert, cursor := Cursor.insert now }

/-- `App::leave_insert`: mode Normal, solid cursor. -/
def App.leave_insert (a : App) : App :=
  { a with mode := Mode.Normal, cursor := Cursor.Normal }

/-- `App::switch_hex`: toggle the flag, clear the rx display buffer, and
regenerate it in full from the raw history under the new codec. -/
def App.switch_hex (a : App) : App :=
  let hex := !a.is_hex
  { a with
    is_hex := hex
    rx_out := if hex then a.rx_buf.foldl push_hex [] else a.rx_buf.foldl push_ascii [] }

/-- `App::send_char`: encode the char, `write_all` it to the device
(error propagates before any display mutation), then echo it. -/
def App.send_char (d : DevTick) (a : App) (c : Char) :
    App × List IOCall × Except Unit Unit :=
  let bytes := encodeUtf8 c
  if d.write_ok then (a.tx_push_char c, [IOCall.writeCall bytes], Except.ok ())
  else (a, [IOCall.writeCall bytes], Except.error ())

/-- `App::send_char_but_show`: write the char's bytes to the device but
echo the substitute string instead. -/
def App.send_char_but_show (d : DevTick) (a : App) (c : Char) (shown : List Char) :
    App × List IOCall × Except Unit Unit :=
  let bytes := encodeUtf8 c
  if d.write_ok then (a.tx_push_str shown, [IOCall.writeCall bytes], Except.ok ())
  else (a, [IOCall.writeCall bytes], Except.error ())

/-- `App::get_data`: query `bytes_to_read`; a `NoDevice` error only
clears the connectivity flag; any other error propagates; otherwise grow
the raw history by the reported count, `read_exact` into the new region
(a short or failed read propagates as an error), and append the render
of exactly the new bytes to the rx display buffer. -/
def App.get_data (d : DevTick) (a : App) :
    App × List IOCall × Except Unit Unit :=
  match d.bytes_to_read with
  | Except.error SerialErr.NoDevice =>
    ({ a with connected := false }, [IOCall.bytesAvailable], Except.ok ())
  | Except.error SerialErr.Other =>
    (a, [IOCall.bytesAvailable], Except.error ())
  | Except.ok n =>
    if d.read_ok ∧ d.read_data.length = n then
      ({ a with
         rx_buf := a.rx_buf ++ d.read_data
         rx_out := if a.is_hex then d.read_data.foldl push_hex a.rx_out
                   else d.read_data.foldl push_ascii a.rx_out },
       [IOCall.bytesAvailable, IOCall.readCall n], Except.ok ())
    else
      ({ a with rx_buf := a.rx_buf ++ List.replicate n 0 },
       [IOCall.bytesAvailable, IOCall.readCall n], Except.error ())

/-- The four-space echo substitute used for Tab. -/
def spaces4 : List Char := [' ', ' ', ' ', ' ']

/-- Lift a send result to the dispatcher's return type: the `?` operator
followed by `Ok(Control::Continue)` at the end of the arm. -/
def toCtl (x : App × List IOCall × Except Unit Unit) :
    App × List IOCall × Except Unit Control :=
  (x.1, x.2.1, x.2.2.map fun _ => Control.Continue)

/-- `App::handle_key`: mode-directed key dispatch.  Only `key.code` is
inspected; modifiers are never read.  `now` models the `Instant::now()`
sampled inside `Cursor::insert` on the `i` transition. -/
def App.handle_key (d : DevTick) (a : App) (key : KeyEvent) (now : Nat) :
    App × List IOCall × Except Unit Control :=
  match a.mode with
  | Mode.Insert =>
    match key.code with
    | KeyCode.Esc => (a.leave_insert, [], Except.ok Control.Continue)
    | KeyCode.Char c => toCtl (a.send_char d c)
    | KeyCode.Tab => toCtl (a.send_char_but_show d '\t' spaces4)
    | KeyCode.Enter => toCtl (a.send_char d '\n')
    | _ => (a, [], Except.ok Control.Continue)
  | Mode.Normal =>
    match key.code with
    | KeyCode.Esc => ({ a with mode := Mode.WannaQuit }, [], Except.ok Control.Continue)
    | KeyCode.Char c =>
      if c = 'q' then ({ a with mode := Mode.WannaQuit }, [], Except.ok Control.Continue)
      else if c = 'i' then (a.enter_insert now, [], Except.ok Control.Continue)
      else if c = 'h' then (a.switch_hex, [], Except.ok Control.Continue)
      else (a, [], Except.ok Control.Continue)
    | _ => (a, [], Except.ok Control.Continue)
  | Mode.WannaQuit =>
    match key.code with
    | KeyCode.Esc => ({ a with mode := Mode.Normal }, [], Except.ok Control.Continue)
    | KeyCode.Char c =>
      if c = 'n' ∨ c = 'q' then ({ a with mode := Mode.Normal }, [], Except.ok Control.Continue)
      else if c = 'y' then (a, [], Except.ok Control.Exit)
      else (a, [], Except.ok Control.Continue)
    | _ => (a, [], Except.ok Control.Continue)
  | Mode.Config => (a, [], Except.ok Control.Continue)

/-- `App::update`: the per-tick entry point.  Dispatch the optional key
event (errors propagate at once), then drain the device (errors
propagate), then advance the cursor; return the accumulated I/O log and
the control signal. -/
def App.update (d : DevTick) (ev : Option Event) (now : Nat) (a : App) :
    App × List IOCall × Except Unit Control :=
  match ev with
  | some (Event.Key k) =>
    match a.handle_key d k now with
    | (a1, log1, Except.error e) => (a1, log1, Except.error e)
    | (a1, log1, Except.ok ctl) =>
      match a1.get_data d with
      | (a2, log2, Except.error e) => (a2, log1 ++ log2, Except.error e)
      | (a2, log2, Except.ok _) =>
        (a2.update_cursor true now, log1 ++ log2, Except.ok ctl)
  | _ =>
    match a.get_data d with
    | (a2, log2, Except.error e) => (a2, log2, Except.error e)
    | (a2, log2, Except.ok _) =>
      (a2.update_cursor false now, log2, Except.ok Control.Continue)

/-- One tick's inputs: device behaviour, optional event, timestamp. -/
structure Tick where
  dev : DevTick
  ev : Option Event
  now : Nat

/-- Run a sequence of ticks from a state, always continuing with the
state `update` returns (the mode cannot become `Config` along the way
whether or not a tick errored). -/
def App.run (ticks : List Tick) (a : App) : App :=
  ticks.foldl (fun s t => (s.update t.dev t.ev t.now).1) a

/-- Device behaviour reporting `NoDevice` on the availability query. -/
def ndev : DevTick := ⟨Except.error SerialErr.NoDevice, [], true, true⟩

/-- Quiet, healthy device: zero bytes available, writes succeed. -/
def qdev : DevTick := ⟨Except.ok 0, [], true, true⟩

/-- Device with one pending zero byte. -/
def busydev : DevTick := ⟨Except.ok 1, [0], true, true⟩

/-- Device whose `write_all` fails. -/
def baddev : DevTick := ⟨Except.ok 0, [], true, false⟩

/-- Device with the two bytes `0x41 0x09` pending. -/
def hexdev : DevTick := ⟨Except.ok 2, [0x41, 0x09], true, true⟩

/-- Fresh session whose tx buffer carries the solid glyph (the state one
tick after construction). -/
def glyphApp : App := { App.new with tx_out := [Cursor.NORMAL] }

/-- Fresh session switched to hex mode. -/
def hexApp : App := { App.new with is_hex := true }

/-- Session in Insert mode with a visible cursor glyph in the buffer. -/
def insApp : App :=
  { App.new with
    mode := Mode.Insert
    cursor := Cursor.Insert true 0 0
    tx_out := [Cursor.INSERT] }

/-- Session in ascii mode with raw history `[0x41, 0x09]` and a junk rx
display buffer. -/
def c4App : App := { App.new with rx_buf := [0x41, 0x09], rx_out := ['x', 'y'] }

lemma foldl_push_hex (bs : List Nat) (s : List Char) :
    bs.foldl push_hex s = s ++ hexRender bs := by
  induction bs generalizing s with
  | nil => simp [hexRender]
  | cons b bs ih =>
    simp only [hexRender, List.foldl_cons]
    rw [ih (push_hex s b), ih (push_hex [] b)]
    simp [push_hex]

lemma foldl_push_ascii (bs : List Nat) (s : List Char) :
    bs.foldl push_ascii s = s ++ asciiRender bs := by
  induction bs generalizing s with
  | nil => simp [asciiRender]
  | cons b bs ih =>
    simp only [asciiRender, List.foldl_cons]
    rw [ih (push_ascii s b), ih (push_ascii [] b)]
    by_cases hb : b = 9 <;> simp [push_ascii, hb]

lemma getLast?_append_one {α : Type} (l : List α) (x : α) :
    (l ++ [x]).getLast? = some x := by
  rw [List.getLast?_append_cons]
  rfl

lemma getLast?_dropLast {α : Type} (l : List α) (x : α)
    (h : l.getLast? = some x) : l.dropLast ++ [x] = l := by
  induction l with
  | nil => simp at h
  | cons a t ih =>
    cases t with
    | nil =>
      simp [List.getLast?] at h
      simp [h]
    | cons b t2 =>
      rw [List.getLast?_cons_cons] at h
      simpa using ih h

lemma get_data_quiet (d : DevTick) (a : App)
    (hb : d.bytes_to_read = Except.ok 0) (hr : d.read_ok = true)
    (hd : d.read_data = []) :
    a.get_data d = (a, [IOCall.bytesAvailable, IOCall.readCall 0], Except.ok ()) := by
  simp [App.get_data, hb, hr, hd]

lemma update_cursor_solid (a : App) (kp : Bool) (now : Nat)
    (hc : a.cursor = Cursor.Normal)
    (ht : a.tx_out.getLast? = some Cursor.NORMAL) :
    a.update_cursor kp now = a := by
  have h2 : a.tx_out.dropLast ++ [Cursor.NORMAL] = a.tx_out :=
    getLast?_dropLast _ _ ht
  simp [App.update_cursor, hc, Cursor.update, Cursor.cursor, h2]
  rw [← hc]

lemma update_cursor_glyph (a : App) (kp : Bool) (now : Nat) :
    (a.update_cursor kp now).tx_out.getLast? =
      some ((a.update_cursor kp now).cursor.cursor) := by
  simp [App.update_cursor, getLast?_append_one]

lemma get_data_fst_mode (d : DevTick) (a : App) :
    ((a.get_data d).1).mode = a.mode := by
  unfold App.get_data
  rcases hb : d.bytes_to_read with e | n
  · cases e <;> rfl
  · dsimp only
    split <;> rfl

lemma send_char_fst_mode (d : DevTick) (a : App) (c : Char) :
    ((a.send_char d c).1).mode = a.mode := by
  unfold App.send_char
  dsimp only
  split <;> rfl

lemma send_char_but_show_fst_mode (d : DevTick) (a : App) (c : Char) (shown : List Char) :
    ((a.send_char_but_show d c shown).1).mode = a.mode := by
  unfold App.send_char_but_show
  dsimp only
  split <;> rfl

lemma handle_key_mode_ne_config (d : DevTick) (a : App) (k : KeyEvent) (now : Nat)
    (h : a.mode ≠ Mode.Config) : ((a.handle_key d k now).1).mode ≠ Mode.Config := by
  rcases hk : k.code with _ | c
  all_goals
    rcases hm : a.mode
  all_goals
    simp_all [App.handle_key, toCtl, App.leave_insert, App.enter_insert, App.switch_hex,
      send_char_fst_mode, send_char_but_show_fst_mode]
  all_goals
    split_ifs <;>
      simp_all [App.enter_insert, App.switch_hex, send_char_fst_mode]

lemma update_fst_mode_ne_config (d : DevTick) (ev : Option Event) (now : Nat)
    (a : App) (h : a.mode ≠ Mode.Config) :
    ((a.update d ev now).1).mode ≠ Mode.Config := by
  cases ev with
  | some e =>
    cases e with
    | Key k =>
      have hhk : ((a.handle_key d k now).1).mode ≠ Mode.Config :=
        handle_key_mode_ne_config d a k now h
      rcases hk : a.handle_key d k now with ⟨a1, l1, r1⟩
      rw [hk] at hhk
      cases r1 with
      | error e => simpa [App.update, hk] using hhk
      | ok ctl =>
        have h2 : ((a1.get_data d).1).mode = a1.mode := get_data_fst_mode d a1
        rcases hg : a1.get_data d with ⟨a2, l2, r2⟩
        rw [hg] at h2
        cases r2 with
        | error e =>
          simp only [App.update, hk, hg]
          rw [h2]
          exact hhk
        | ok u =>
          simp only [App.update, hk, hg, App.update_cursor]
          rw [h2]
          exact hhk
    | Other =>
      have h2 : ((a.get_data d).1).mode = a.mode := get_data_fst_mode d a
      rcases hg : a.get_data d with ⟨a2, l2, r2⟩
      rw [hg] at h2
      cases r2 with
      | error e =>
        simp only [App.update, hg]
        rw [h2]
        exact h
      | ok u =>
        simp only [App.update, hg, App.update_cursor]
        rw [h2]
        exact h
  | none =>
    have h2 : ((a.get_data d).1).mode = a.mode := get_data_fst_mode d a
    rcases hg : a.get_data d with ⟨a2, l2, r2⟩
    rw [hg] at h2
    cases r2 with
    | error e =>
      simp only [App.update, hg]
      rw [h2]
      exact h
    | ok u =>
      simp only [App.update, hg, App.update_cursor]
      rw [h2]
      exact h

lemma run_mode_ne_config (ticks : List Tick) (a : App)
    (h : a.mode ≠ Mode.Config) : (App.run ticks a).mode ≠ Mode.Config := by
  induction ticks generalizing a with
  | nil => simpa [App.run] using h
  | cons t ts ih =>
    simp only [App.run, List.foldl_cons] at *
    exact ih _ (update_fst_mode_ne_config t.dev t.ev t.now a h)

lemma hexDigitChar_mem (n : Nat) (h : n < 16) :
    hexDigitChar n ∈ "0123456789ABCDEF".toList := by
  interval_cases n <;> decide

lemma update_ok_glyph (d : DevTick) (ev : Option Event) (now : Nat) (a : App)
    (a' : App) (log : List IOCall) (r : Control)
    (h : a.update d ev now = (a', log, Except.ok r)) :
    a'.tx_out.getLast? = some (a'.cursor.cursor) := by
  have main : ∀ (b : App) (kp : Bool), a' = b.update_cursor kp now →
      a'.tx_out.getLast? = some (a'.cursor.cursor) := by
    rintro b kp rfl
    exact update_cursor_glyph b kp now
  cases ev with
  | some e =>
    cases e with
    | Key k =>
      rcases hk : a.handle_key d k now with ⟨a1, l1, r1⟩
      cases r1 with
      | error e1 => simp [App.update, hk] at h
      | ok ctl =>
        rcases hg : a1.get_data d with ⟨a2, l2, r2⟩
        cases r2 with
        | error e2 => simp [App.update, hk, hg] at h
        | ok u =>
          simp only [App.update, hk, hg, Prod.mk.injEq] at h
          exact main a2 true h.1.symm
    | Other =>
      rcases hg : a.get_data d with ⟨a2, l2, r2⟩
      cases r2 with
      | error e2 => simp [App.update, hg] at h
      | ok u =>
        simp only [App.update, hg, Prod.mk.injEq] at h
        exact main a2 false h.1.symm
  | none =>
    rcases hg : a.get_data d with ⟨a2, l2, r2⟩
    cases r2 with
    | error e2 => simp [App.update, hg] at h
    | ok u =>
      simp only [App.update, hg, Prod.mk.injEq] at h
      exact main a2 false h.1.symm

lemma handle_key_normal_quit (d : DevTick) (a : App) (m now : Nat) (code : KeyCode)
    (hm : a.mode = Mode.Normal)
    (hcode : code = KeyCode.Esc ∨ code = KeyCode.Char 'q') :
    a.handle_key d ⟨code, m⟩ now =
      ({ a with mode := Mode.WannaQuit }, [], Except.ok Control.Continue) := by
  rcases hcode with h | h <;> subst h <;> simp [App.handle_key, hm]

lemma handle_key_wq_yes (d : DevTick) (a : App) (m now : Nat)
    (hm : a.mode = Mode.WannaQuit) :
    a.handle_key d ⟨KeyCode.Char 'y', m⟩ now = (a, [], Except.ok Control.Exit) := by
  simp [App.handle_key, hm]

lemma handle_key_wq_no (d : DevTick) (a : App) (m now : Nat) (code : KeyCode)
    (hm : a.mode = Mode.WannaQuit)
    (hcode : code = KeyCode.Esc ∨ code = KeyCode.Char 'n' ∨ code = KeyCode.Char 'q') :
    a.handle_key d ⟨code, m⟩ now =
      ({ a with mode := Mode.Normal }, [], Except.ok Control.Continue) := by
  rcases hcode with h | h | h <;> subst h <;> simp [App.handle_key, hm]

/-- Claim C1 is false as stated: after a tick in which the device
reported `NoDevice` (so `connected` is already `false`), the very next
call to `update` still invokes `bytes_available` on the device — the
connectivity flag is never consulted before querying. -/
theorem c1_counterexample :
    ((App.new.update ndev none 0).1).connected = false ∧
    IOCall.bytesAvailable ∈ (((App.new.update ndev none 0).1).update ndev none 0).2.1 := by
  decide

/-- Claim C1, amended: on any tick without an event in which the device
reports `NoDevice`, `update` returns without error, leaves the
connectivity flag `false`, and performs no read and no write — but it
does invoke `bytes_available` (exactly once), on every such tick,
regardless of the current value of the connectivity flag. -/
theorem c1_amended (d : DevTick) (a : App) (now : Nat)
    (hb : d.bytes_to_read = Except.error SerialErr.NoDevice) :
    ((a.update d none now).1).connected = false ∧
    (a.update d none now).2.1 = [IOCall.bytesAvailable] ∧
    (a.update d none now).2.2 = Except.ok Control.Continue := by
  simp [App.update, App.get_data, hb, App.update_cursor]

/-- Witness for `c1_amended` at the concrete no-device tick. -/
theorem c1_amended_witness :
    ((App.new.update ndev none 0).1).connected = false ∧
    (App.new.update ndev none 0).2.1 = [IOCall.bytesAvailable] ∧
    (App.new.update ndev none 0).2.2 = Except.ok Control.Continue :=
  c1_amended ndev App.new 0 rfl

/-- Claim C2 fails on the code (code bug): on the tick immediately
following a key-press tick, the timer does NOT increase by the
wall-clock delta since the previous tick, because the key-press branch
of `Cursor::update` returns early without refreshing `last`.  Concrete
run: enter Insert at t = 0 (`Insert true 0 0`); a key-press tick at
t = 100 ms zeroes the timer but leaves `last = 0`; the idle tick at
t = 200 ms then adds 200 ms — the full span since Insert entry — to the
timer, where the claim (and the spec's per-tick-delta description)
requires adding the 100 ms elapsed since the previous tick.  The same
divergence reproduced through two whole `App::update` ticks. -/
theorem c2_blink_code_bug :
    Cursor.update (Cursor.update (Cursor.Insert true 0 0) true 100000000)
        false 200000000 =
      Cursor.Insert true 200000000 200000000 ∧
    ((insApp.update qdev (some (Event.Key ⟨KeyCode.Other, 0⟩)) 100000000).1.update
        qdev none 200000000).1.cursor =
      Cursor.Insert true 200000000 200000000 := by
  constructor
  · decide
  · decide

/-- Claim C4: toggling the encoding regenerates the rx display buffer in
full from the raw history under the newly selected codec — the result is
a function of the raw history alone, never of the prior display string —
and the raw history itself is untouched; hence toggling ascii→hex→ascii
reproduces the ascii rendering of the history exactly. -/
theorem c4_switch_hex_regenerates (a : App) :
    (a.switch_hex.rx_out =
       if a.is_hex then asciiRender a.rx_buf else hexRender a.rx_buf) ∧
    a.switch_hex.rx_buf = a.rx_buf ∧
    (∀ s : List Char, ({ a with rx_out := s } : App).switch_hex.rx_out =
       a.switch_hex.rx_out) ∧
    (a.is_hex = false →
       a.switch_hex.switch_hex.rx_out = asciiRender a.rx_buf) := by
  refine ⟨?_, rfl, fun s => rfl, fun hh => ?_⟩
  · cases ha : a.is_hex <;> simp [App.switch_hex, hexRender, asciiRender, ha]
  · simp [App.switch_hex, hh, asciiRender]

/-- Witness for `c4_switch_hex_regenerates`: double toggle on a concrete
ascii-mode session with history `[0x41, 0x09]` and a junk display. -/
theorem c4_witness :
    c4App.switch_hex.switch_hex.rx_out = asciiRender c4App.rx_buf :=
  (c4_switch_hex_regenerates c4App).2.2.2 rfl

/-- Claim C9: the mode `Config` is unreachable — running any sequence of
ticks (any device behaviours, any events, any elapsed times) from the
initial session state always leaves the mode in
`{Normal, Insert, WannaQuit}`. -/
theorem c9_config_unreachable (ticks : List Tick) :
    (App.run ticks App.new).mode = Mode.Normal ∨
    (App.run ticks App.new).mode = Mode.Insert ∨
    (App.run ticks App.new).mode = Mode.WannaQuit := by
  have h := run_mode_ne_config ticks App.new (by decide)
  cases hm : (App.run ticks App.new).mode <;> simp_all

/-- Claim C10: key dispatch ignores modifiers — for the same key code,
`handle_key` returns the same state, I/O calls and control signal under
any two modifier sets. -/
theorem c10_modifiers_ignored (d : DevTick) (a : App) (code : KeyCode)
    (m1 m2 now : Nat) :
    a.handle_key d ⟨code, m1⟩ now = a.handle_key d ⟨code, m2⟩ now := by
  rcases a with ⟨tx, txs, rxb, rxo, rxs, hx, cn, md, cu⟩
  cases md <;> cases code <;> rfl

/-- Claim C3 is false as stated: immediately after construction the tx
display buffer is empty, so its final character is not the cursor glyph
(there is no final character at all). -/
theorem c3_counterexample :
    App.new.tx_out = [] ∧
    App.new.tx_out.getLast? ≠ some (App.new.cursor.cursor) := by
  decide

/-- Claim C3, amended: the tx-buffer invariant — the final character is
exactly the current cursor glyph — holds after every successful tick and
after every content mutation (`update_cursor` always, `send_char` and
`send_char_but_show` whenever the device write succeeds); only the
freshly constructed state, whose tx buffer is still empty, lacks the
glyph. -/
theorem c3_tx_glyph_invariant :
    (∀ (d : DevTick) (ev : Option Event) (now : Nat) (a a' : App)
       (log : List IOCall) (r : Control),
       a.update d ev now = (a', log, Except.ok r) →
       a'.tx_out.getLast? = some (a'.cursor.cursor)) ∧
    (∀ (a : App) (kp : Bool) (now : Nat),
       (a.update_cursor kp now).tx_out.getLast? =
         some ((a.update_cursor kp now).cursor.cursor)) ∧
    (∀ (d : DevTick) (a : App) (c : Char), d.write_ok = true →
       ((a.send_char d c).1).tx_out.getLast? =
         some (((a.send_char d c).1).cursor.cursor)) ∧
    (∀ (d : DevTick) (a : App) (c : Char) (shown : List Char),
       d.write_ok = true →
       ((a.send_char_but_show d c shown).1).tx_out.getLast? =
         some (((a.send_char_but_show d c shown).1).cursor.cursor)) := by
  refine ⟨update_ok_glyph, update_cursor_glyph, ?_, ?_⟩
  · intro d a c hw
    simp [App.send_char, hw, App.tx_push_char]
  · intro d a c shown hw
    simp [App.send_char_but_show, hw, App.tx_push_str, getLast?_append_one]

/-- Witness for `c3_tx_glyph_invariant`: the state one quiet tick after
construction carries the solid glyph as its final tx character. -/
theorem c3_tx_glyph_invariant_witness :
    glyphApp.tx_out.getLast? = some (glyphApp.cursor.cursor) :=
  c3_tx_glyph_invariant.1 qdev none 0 App.new glyphApp
    [IOCall.bytesAvailable, IOCall.readCall 0] Control.Continue (by decide)

/-- Claim C5: bytes drained while hex mode is active are appended to the
rx display buffer as, per byte in arrival order, two uppercase
hexadecimal digits followed by one space; raw history `[0x41, 0x09]`
renders as `41 09 ` in hex mode and as `A` followed by four spaces in
ascii mode. -/
theorem c5_hex_rendering :
    (∀ (d : DevTick) (a : App) (n : Nat),
       a.is_hex = true → d.bytes_to_read = Except.ok n → d.read_ok = true →
       d.read_data.length = n →
       ((a.get_data d).1).rx_out = a.rx_out ++ hexRender d.read_data) ∧
    (hexRender [] = [] ∧
     ∀ (b : Nat) (bs : List Nat),
       hexRender (b :: bs) = hexByte b ++ hexRender bs) ∧
    (∀ b : Nat, b < 256 →
       hexByte b = [hexDigitChar (b / 16), hexDigitChar (b % 16), ' '] ∧
       hexDigitChar (b / 16) ∈ "0123456789ABCDEF".toList ∧
       hexDigitChar (b % 16) ∈ "0123456789ABCDEF".toList) ∧
    hexRender [0x41, 0x09] = "41 09 ".toList ∧
    asciiRender [0x41, 0x09] = "A    ".toList := by
  refine ⟨?_, ⟨rfl, ?_⟩, ?_, by decide, by decide⟩
  · intro d a n ha hb hr hl
    simp [App.get_data, hb, hr, hl, ha, foldl_push_hex]
  · intro b bs
    simp only [hexRender, List.foldl_cons]
    rw [foldl_push_hex]
    simp [push_hex, hexRender]
  · intro b hb
    exact ⟨rfl, hexDigitChar_mem _ (by omega), hexDigitChar_mem _ (by omega)⟩

/-- Witness for `c5_hex_rendering`: a hex-mode session draining the two
bytes `0x41 0x09`, and the digit decomposition of byte `0x41`. -/
theorem c5_hex_rendering_witness :
    ((hexApp.get_data hexdev).1).rx_out = hexApp.rx_out ++ hexRender hexdev.read_data ∧
    (hexByte 0x41 = [hexDigitChar (0x41 / 16), hexDigitChar (0x41 % 16), ' '] ∧
     hexDigitChar (0x41 / 16) ∈ "0123456789ABCDEF".toList ∧
     hexDigitChar (0x41 % 16) ∈ "0123456789ABCDEF".toList) :=
  ⟨c5_hex_rendering.1 hexdev hexApp 2 rfl rfl rfl rfl,
   c5_hex_rendering.2.2.1 0x41 (by decide)⟩

/-- Claim C6 is false as stated for the whole tick: in Normal mode, a
tick whose event is the `q` key does move the mode to WannaQuit, but
when the device has a byte pending the same tick's RX drain mutates the
raw history, so the tick does not leave all buffers unchanged. -/
theorem c6_counterexample :
    ((App.new.update busydev (some (Event.Key ⟨KeyCode.Char 'q', 0⟩)) 0).1).mode =
      Mode.WannaQuit ∧
    ((App.new.update busydev (some (Event.Key ⟨KeyCode.Char 'q', 0⟩)) 0).1).rx_buf ≠
      App.new.rx_buf := by
  decide

/-- Claim C6, amended: the quit transitions mutate no buffer over the
whole tick provided the tick itself brings no device data — the device
reports zero bytes available — and the session is in the steady Normal
cursor state (solid cursor, tx buffer ending in the solid glyph).  Then
from Normal, `q` or Esc moves the mode to WannaQuit with tx/rx buffers
and raw history unchanged; from WannaQuit, `y` yields the Exit control
signal with the state unchanged, and `n`/`q`/Esc returns the mode to
Normal with all buffers unchanged. -/
theorem c6_quit_transitions (d : DevTick) (a : App) (code : KeyCode)
    (m now : Nat)
    (hc : a.cursor = Cursor.Normal)
    (ht : a.tx_out.getLast? = some Cursor.NORMAL)
    (hb : d.bytes_to_read = Except.ok 0) (hr : d.read_ok = true)
    (hd : d.read_data = []) :
    (a.mode = Mode.Normal → (code = KeyCode.Esc ∨ code = KeyCode.Char 'q') →
       a.update d (some (Event.Key ⟨code, m⟩)) now =
         ({ a with mode := Mode.WannaQuit },
          [IOCall.bytesAvailable, IOCall.readCall 0], Except.ok Control.Continue)) ∧
    (a.mode = Mode.WannaQuit →
       a.update d (some (Event.Key ⟨KeyCode.Char 'y', m⟩)) now =
         (a, [IOCall.bytesAvailable, IOCall.readCall 0], Except.ok Control.Exit)) ∧
    (a.mode = Mode.WannaQuit →
       (code = KeyCode.Esc ∨ code = KeyCode.Char 'n' ∨ code = KeyCode.Char 'q') →
       a.update d (some (Event.Key ⟨code, m⟩)) now =
         ({ a with mode := Mode.Normal },
          [IOCall.bytesAvailable, IOCall.readCall 0], Except.ok Control.Continue)) := by
  have hgd : ∀ b : App,
      App.get_data d b = (b, [IOCall.bytesAvailable, IOCall.readCall 0], Except.ok ()) :=
    fun b => get_data_quiet d b hb hr hd
  refine ⟨fun hm hcode => ?_, fun hm => ?_, fun hm hcode => ?_⟩
  · simp only [App.update, handle_key_normal_quit d a m now code hm hcode, hgd]
    rw [update_cursor_solid { a with mode := Mode.WannaQuit } true now hc ht]
    simp
  · simp only [App.update, handle_key_wq_yes d a m now hm, hgd]
    rw [update_cursor_solid a true now hc ht]
    simp
  · simp only [App.update, handle_key_wq_no d a m now code hm hcode, hgd]
    rw [update_cursor_solid { a with mode := Mode.Normal } true now hc ht]
    simp

/-- Witness for `c6_quit_transitions`: concrete quiet-device ticks from
the steady post-construction state in Normal and WannaQuit modes. -/
theorem c6_quit_transitions_witness :
    glyphApp.update qdev (some (Event.Key ⟨KeyCode.Char 'q', 0⟩)) 0 =
      ({ glyphApp with mode := Mode.WannaQuit },
       [IOCall.bytesAvailable, IOCall.readCall 0], Except.ok Control.Continue) ∧
    ({ glyphApp with mode := Mode.WannaQuit } : App).update qdev
        (some (Event.Key ⟨KeyCode.Char 'y', 0⟩)) 0 =
      ({ glyphApp with mode := Mode.WannaQuit },
       [IOCall.bytesAvailable, IOCall.readCall 0], Except.ok Control.Exit) :=
  ⟨(c6_quit_transitions qdev glyphApp (KeyCode.Char 'q') 0 0 rfl rfl rfl rfl rfl).1
      rfl (Or.inr rfl),
   (c6_quit_transitions qdev { glyphApp with mode := Mode.WannaQuit }
      (KeyCode.Char 'q') 0 0 rfl rfl rfl rfl rfl).2.1 rfl⟩

/-- Claim C7: in Insert mode a Tab key event writes exactly one byte —
the literal tab byte `0x09` (the UTF-8 encoding of the tab character) —
to the device, and the tx display buffer receives exactly four space
characters followed by the trailing cursor glyph (the previous trailing
glyph having been popped). -/
theorem c7_tab_insert (d : DevTick) (a : App) (m now : Nat)
    (hm : a.mode = Mode.Insert) (hw : d.write_ok = true) :
    a.handle_key d ⟨KeyCode.Tab, m⟩ now =
      ({ a with tx_out := a.tx_out.dropLast ++ spaces4 ++ [a.cursor.cursor] },
       [IOCall.writeCall [9]], Except.ok Control.Continue) ∧
    encodeUtf8 '\t' = [9] := by
  have he : encodeUtf8 '\t' = [9] := by decide
  refine ⟨?_, he⟩
  simp [App.handle_key, hm, toCtl, App.send_char_but_show, hw, App.tx_push_str,
    he, Except.map]

/-- Witness for `c7_tab_insert`: a Tab key in a concrete Insert-mode
session with a healthy device. -/
theorem c7_tab_insert_witness :
    insApp.handle_key qdev ⟨KeyCode.Tab, 0⟩ 0 =
      ({ insApp with
          tx_out := insApp.tx_out.dropLast ++ spaces4 ++ [insApp.cursor.cursor] },
       [IOCall.writeCall [9]], Except.ok Control.Continue) :=
  (c7_tab_insert qdev insApp 0 0 rfl rfl).1

/-- Claim C8: transmit is atomic on error — the encoded bytes are
written to the device before any display mutation, so when the write
fails the error is returned and the whole session state (in particular
the tx display buffer) is unchanged, including through a full `update`
tick; when the write succeeds the echo is appended afterwards. -/
theorem c8_transmit_atomic (d : DevTick) (a : App) (c : Char) (m now : Nat) :
    (d.write_ok = false →
       a.send_char d c = (a, [IOCall.writeCall (encodeUtf8 c)], Except.error ()) ∧
       a.send_char_but_show d c spaces4 =
         (a, [IOCall.writeCall (encodeUtf8 c)], Except.error ()) ∧
       (a.mode = Mode.Insert →
          a.update d (some (Event.Key ⟨KeyCode.Char c, m⟩)) now =
            (a, [IOCall.writeCall (encodeUtf8 c)], Except.error ()))) ∧
    (d.write_ok = true →
       a.send_char d c =
         (a.tx_push_char c, [IOCall.writeCall (encodeUtf8 c)], Except.ok ())) := by
  constructor
  · intro hw
    refine ⟨by simp [App.send_char, hw], by simp [App.send_char_but_show, hw], ?_⟩
    intro hm
    simp [App.update, App.handle_key, hm, toCtl, App.send_char, hw, Except.map]
  · intro hw
    simp [App.send_char, hw]

/-- Witness for `c8_transmit_atomic`: a failing write on a concrete
Insert-mode session leaves the state unchanged and surfaces the error,
both at the send and through the whole tick. -/
theorem c8_transmit_atomic_witness :
    insApp.send_char baddev 'x' =
      (insApp, [IOCall.writeCall (encodeUtf8 'x')], Except.error ()) ∧
    insApp.update baddev (some (Event.Key ⟨KeyCode.Char 'x', 0⟩)) 0 =
      (insApp, [IOCall.writeCall (encodeUtf8 'x')], Except.error ()) :=
  ⟨((c8_transmit_atomic baddev insApp 'x' 0 0).1 rfl).1,
   ((c8_transmit_atomic baddev insApp 'x' 0 0).1 rfl).2.2 rfl⟩

end Tuicom
